import Mathlib

/-!
Verification of the insurance-claim survey quality checker (`main.py`).

The rule tables, the four audit rules, the per-case evaluator and the
institution summary sheet are embedded as executable Lean definitions
translated from the Python source.  Modelling conventions:

* texts are `String`s (substring tests work on their character lists, which
  is exactly Python's `in` on `str`); an absent spreadsheet cell is `none`;
* a timestamp cell is `TimeField`: absent, unparsable (a non-null value that
  `pandas` fails to parse, which raises and is swallowed by the rule's
  `except` clause), or parsed to a nanosecond count `Int`;
* the fragment of Python regexes that the program uses — literal runs,
  alternation, bounded any-character gaps, an optional trailing character —
  is embedded as the `Pat` language with an executable `re.search` analogue;
* percentages are computed over exact rationals, with Python's
  round-half-to-even in place of binary floating point (the rates that occur
  are ratios of small integers, far from the half-ulp region where the two
  could disagree);
* `DataFrame.sort_values` on the priority key is modelled by an insertion
  sort.  The program guarantees only the key order: pandas' default
  quicksort fixes no order among equal keys (it degenerates to a stable
  insertion sort only on small arrays, such as the two-group counterexample
  input below), so the ordering facts proved here use only the key order.
-/

namespace ClaimChecker

/-! ### A tiny pattern language: the regex fragment used by `main.py` -/

/-- Patterns: literal character runs, alternation, a bounded gap of at most
`n` arbitrary non-newline characters (Python `.` repeated), sequencing, and
an optional subpattern (`?`). -/
inductive Pat where
  | lit : List Char → Pat
  | gap : Nat → Pat
  | seq : Pat → Pat → Pat
  | alt : Pat → Pat → Pat
  | opt : Pat → Pat
deriving Repr

/-- Suffixes reachable from `cs` by consuming at most `n` non-newline
characters (the semantics of a bounded wildcard gap). -/
def gapEnds : Nat → List Char → List (List Char)
  | 0, cs => [cs]
  | _ + 1, [] => [[]]
  | n + 1, c :: cs => (c :: cs) :: (if c = '\n' then [] else gapEnds n cs)

/-- All suffixes of `cs` left over after matching a prefix of `cs` against
the pattern; the empty result list means no match at this position. -/
def matchEnds : Pat → List Char → List (List Char)
  | .lit s, cs => if s.isPrefixOf cs then [cs.drop s.length] else []
  | .gap n, cs => gapEnds n cs
  | .seq p q, cs => (matchEnds p cs).flatMap (matchEnds q)
  | .alt p q, cs => matchEnds p cs ++ matchEnds q cs
  | .opt p, cs => cs :: matchEnds p cs

/-- Boolean analogue of Python's `re.search`: does the pattern match starting
at some position of the text? -/
def search (p : Pat) : List Char → Bool
  | [] => !(matchEnds p []).isEmpty
  | c :: cs => !(matchEnds p (c :: cs)).isEmpty || search p cs

/-- Python's string comparison: lexicographic on code points (`a ≤ b`).
Used to model the ascending key order of `DataFrame.groupby`. -/
def charListLE : List Char → List Char → Bool
  | [], _ => true
  | _ :: _, [] => false
  | a :: as, b :: bs =>
      if a < b then true else if b < a then false else charListLE as bs

/-- Python's `needle in hay` on strings: does `needle` occur as a contiguous
substring of `hay`? -/
def substringOf (needle : List Char) : List Char → Bool
  | [] => needle.isEmpty
  | c :: t => needle.isPrefixOf (c :: t) || substringOf needle t

/-- Literal pattern from a string. -/
def plit (s : String) : Pat := .lit s.data

/-- Sequencing of a list of patterns. -/
def pseq (l : List Pat) : Pat := l.foldr Pat.seq (Pat.lit [])

/-! ### The fixed rule tables of `main.py` -/

/-- Insurance category table `INSURANCE_CATEGORIES`: an ordered list of
(category, keyword list) pairs (insertion order of the Python dict). -/
def INSURANCE_CATEGORIES : List (String × List String) :=
  [("雇主类", ["雇主责任"]),
   ("安责类", ["安全生产责任", "建筑施工行业安全生产责任", "建工团意"]),
   ("意外类", ["意外险"]),
   ("重疾类", ["重大疾病"]),
   ("财产类", ["财产一切", "财产综合", "财产基本", "机器损坏"]),
   ("工程类", ["建工一切", "路桥工程", "安工一切"]),
   ("公众类", ["公众责任"])]

/-- Core-element table `CORE_ELEMENTS`: category to its ordered list of
required narrative elements. -/
def CORE_ELEMENTS : List (String × List String) :=
  [("雇主类", ["伤情", "部位", "医院", "岗位", "工种", "工伤", "劳动关系", "分包", "考勤"]),
   ("安责类", ["伤情", "部位", "医院", "岗位", "工种", "工伤", "劳动关系", "分包", "考勤"]),
   ("意外类", ["伤情", "部位", "医院", "职业"]),
   ("重疾类", ["诊断时间", "疾病名称", "疾病编码", "既往病史"]),
   ("财产类", ["标的类型", "原因类型", "维修方式", "财务账册", "残值"]),
   ("工程类", ["工程名称", "标的类型", "原因类型", "进度", "维修", "三者"]),
   ("公众类", ["归属", "标识", "监控", "三者", "医疗", "和解", "赔偿"]),
   ("其他类", ["损失类型", "后续处理"])]

/-- Mandatory-item patterns `MANDATORY_PATTERNS`, in declared order.  Each
regex of the source is transcribed into `Pat`. -/
def MANDATORY_PATTERNS : List (String × Pat) :=
  [("查勘时间",
     .alt (.alt (pseq [plit "查勘", .gap 3, plit "时间"])
                (pseq [plit "于", .gap 10, .alt (plit "查勘") (plit "勘查")]))
          (pseq [plit "查勘", .gap 5, plit "日期"])),
   ("查勘地点",
     .alt (.alt (pseq [plit "查勘", .gap 3, plit "地点"])
                (pseq [plit "在", .gap 10, .alt (plit "查勘") (plit "勘查")]))
          (plit "现场位于")),
   ("查勘方式",
     .alt (.alt (.alt (.alt (.alt (.alt (plit "现场") (plit "视频")) (plit "核实"))
                            (plit "走访")) (plit "电话")) (plit "远程")) (plit "到场")),
   ("出险时间",
     .alt (.alt (.alt (pseq [plit "出险", .gap 3, plit "时间"])
                      (pseq [plit "事故", .gap 3, plit "时间"]))
                (pseq [plit "发生", .gap 5, plit "时间"]))
          (pseq [plit "于", .gap 10, .alt (plit "出险") (plit "发生")])),
   ("出险地点",
     .alt (.alt (.alt (pseq [plit "出险", .gap 3, plit "地点"])
                      (pseq [plit "事故", .gap 3, plit "地点"]))
                (pseq [plit "发生", .gap 5, plit "地点"]))
          (pseq [plit "位于", .gap 10, plit "发生"]))]

/-- Delay-justification keyword list `DELAY_KEYWORDS`. -/
def DELAY_KEYWORDS : List String := ["延迟原因", "原因", "核实", "属实"]

/-- Institution priority list `INSTITUTION_ORDER`. -/
def INSTITUTION_ORDER : List String :=
  ["合肥", "芜湖", "蚌埠", "淮南", "马鞍山", "淮北", "铜陵", "安庆", "黄山",
   "滁州", "阜阳", "宿州", "六安", "亳州", "池州", "宣城"]

/-! ### The four audit rules -/

/-- The first-match scan of `classify_insurance`'s nested `for` loops:
return the first category one of whose keywords occurs in the text. -/
def findCategory : List (String × List String) → List Char → Option String
  | [], _ => none
  | (c, ks) :: rest, t =>
      if ks.any (fun k => substringOf k.data t) then some c else findCategory rest t

/-- `classify_insurance`: absent input is `其他类`; otherwise the first
matching category of the table, else `其他类`. -/
def classify_insurance (insurance_type : Option String) : String :=
  match insurance_type with
  | none => "其他类"
  | some s => (findCategory INSURANCE_CATEGORIES s.data).getD "其他类"

/-- The accumulation loop of `check_mandatory`: the items whose pattern does
not match the text, in declared order. -/
def missingItems : List (String × Pat) → List Char → List String
  | [], _ => []
  | (item, p) :: rest, t =>
      if search p t then missingItems rest t else item :: missingItems rest t

/-- `check_mandatory`: rule one, mandatory-item validation.
Returns (passed, missing items). -/
def check_mandatory (survey_summary : Option String) : Bool × List String :=
  match survey_summary with
  | none => (false, MANDATORY_PATTERNS.map Prod.fst)
  | some t =>
      let missing := missingItems MANDATORY_PATTERNS t.data
      (missing.length == 0, missing)

/-- A timestamp cell: absent (`NaN`), present but unparsable (parsing raises
and `check_delay`'s `except` swallows it), or parsed to nanoseconds. -/
inductive TimeField where
  | absent : TimeField
  | unparsable : TimeField
  | parsed : Int → TimeField

/-- Nanoseconds per day: `pandas` timedeltas count nanoseconds and `.days`
floors to whole days. -/
def nsPerDay : Int := 86400000000000

/-- `check_delay`: rule two, report-delay risk.  Returns
(triggered, passed, reason).  Absent timestamps and unparsable timestamps both
end in the fail-open branch: the former via the `pd.isna` test, the latter
via the surrounding `try/except`. -/
def check_delay (accident_time report_time : TimeField)
    (survey_summary : Option String) : Bool × Bool × String :=
  match accident_time, report_time with
  | .absent, _ => (false, true, "")
  | _, .absent => (false, true, "")
  | .unparsable, _ => (false, true, "")
  | _, .unparsable => (false, true, "")
  | .parsed accident_dt, .parsed report_dt =>
      let delay_days : Int := Int.fdiv (report_dt - accident_dt) nsPerDay
      if delay_days ≤ 7 then (false, true, "")
      else
        match survey_summary with
        | none => (true, false,
            "报案延迟" ++ toString delay_days ++ "天，查勘摘要未填写延迟原因")
        | some text =>
            if DELAY_KEYWORDS.any (fun k => substringOf k.data text.data) then
              (true, true, "")
            else
              (true, false,
                "报案延迟" ++ toString delay_days ++ "天，查勘摘要未包含延迟原因说明")

/-- The fuzzy pattern of `check_core_elements`: the source rewrites each
occurrence of `类型` in the element to `.{0,2}类型?` (likewise `方式`), i.e. a
gap of at most two characters, the first suffix character, and the second one
optional.  `fuzzyTokens` performs that rewrite while building a `Pat`. -/
def fuzzyTokens : List Char → List Pat
  | [] => []
  | '类' :: '型' :: rest =>
      Pat.seq (.gap 2) (Pat.seq (.lit ['类']) (.opt (.lit ['型']))) :: fuzzyTokens rest
  | '方' :: '式' :: rest =>
      Pat.seq (.gap 2) (Pat.seq (.lit ['方']) (.opt (.lit ['式']))) :: fuzzyTokens rest
  | c :: rest => Pat.lit [c] :: fuzzyTokens rest

/-- The regex `check_core_elements` builds for one element. -/
def elementPat (e : List Char) : Pat := pseq (fuzzyTokens e)

/-- One element matches the text when its fuzzy pattern matches or the
element occurs verbatim (`re.search(pattern, text) or element in text`). -/
def elementMatches (e : String) (t : List Char) : Bool :=
  search (elementPat e.data) t || substringOf e.data t

/-- The element list for a category: `CORE_ELEMENTS.get(category,
CORE_ELEMENTS['其他类'])`; the fallback is the `其他类` row of the table. -/
def elementsFor (category : String) : List String :=
  match CORE_ELEMENTS.find? (fun p => p.1 == category) with
  | some p => p.2
  | none => ["损失类型", "后续处理"]

/-- The matched/missing split of `check_core_elements`'s loop, preserving
the declared order in both output lists. -/
def matchSplit : List String → List Char → List String × List String
  | [], _ => ([], [])
  | e :: rest, t =>
      let r := matchSplit rest t
      if elementMatches e t then (e :: r.1, r.2) else (r.1, e :: r.2)

/-- `check_core_elements`: rule three, core-element coverage.  Returns
(passed, matched count, missing elements). -/
def check_core_elements (category : String) (survey_summary : Option String) :
    Bool × Nat × List String :=
  match survey_summary with
  | none => (false, 0, elementsFor category)
  | some t =>
      let r := matchSplit (elementsFor category) t.data
      let min_required := min 3 (elementsFor category).length
      (decide (r.1.length ≥ min_required), r.1.length, r.2)

/-- Python's `str.isspace` character class: the Unicode whitespace code
points that `str.strip()` removes — the ASCII whitespace controls and space,
the file/group/record/unit separators, NEL, NBSP, the OGHAM space mark, the
U+2000 fixed-width spaces, the line and paragraph separators, the narrow and
medium mathematical spaces, and the ideographic space U+3000. -/
def pyIsSpace (c : Char) : Bool :=
  c.toNat == 0x9 || c.toNat == 0xA || c.toNat == 0xB || c.toNat == 0xC ||
  c.toNat == 0xD || c.toNat == 0x1C || c.toNat == 0x1D || c.toNat == 0x1E ||
  c.toNat == 0x1F || c.toNat == 0x20 || c.toNat == 0x85 || c.toNat == 0xA0 ||
  c.toNat == 0x1680 ||
  (decide (0x2000 ≤ c.toNat) && decide (c.toNat ≤ 0x200A)) ||
  c.toNat == 0x2028 || c.toNat == 0x2029 || c.toNat == 0x202F ||
  c.toNat == 0x205F || c.toNat == 0x3000

/-- Python `str.strip`: drop Unicode whitespace from both ends. -/
def pyStrip (l : List Char) : List Char :=
  ((l.dropWhile pyIsSpace).reverse.dropWhile pyIsSpace).reverse

/-- `check_overlap`: rule four, summary overlap rate.  Returns
(passed, overlap rate); the rate is the exact rational
|shared characters| / max(|report characters|, |survey characters|). -/
def check_overlap (report_summary survey_summary : Option String) : Bool × ℚ :=
  match report_summary, survey_summary with
  | none, _ => (true, 0)
  | _, none => (true, 0)
  | some r, some s =>
      let report_text := pyStrip r.data
      let survey_text := pyStrip s.data
      if report_text.isEmpty || survey_text.isEmpty then (true, 0)
      else
        let report_chars := report_text.toFinset
        let survey_chars := survey_text.toFinset
        let overlap_chars := report_chars ∩ survey_chars
        let max_len := max report_chars.card survey_chars.card
        let overlap_rate : ℚ :=
          if max_len > 0 then (overlap_chars.card : ℚ) / (max_len : ℚ) else 0
        (decide (overlap_rate < 4/5), overlap_rate)

/-! ### Percentage rendering -/

/-- Round half to even, the rounding of Python's `round`, `.round(1)` and
format specifiers, over exact rationals. -/
def rhe (x : ℚ) : ℤ :=
  if x - ⌊x⌋ < 1/2 then ⌊x⌋
  else if 1/2 < x - ⌊x⌋ then ⌊x⌋ + 1
  else if 2 ∣ ⌊x⌋ then ⌊x⌋ else ⌊x⌋ + 1

/-- Render a nonnegative number of tenths as a decimal with one digit after
the point (`str` of a one-decimal float, or the `.1f` format). -/
def fmtTenths (n : ℕ) : String := toString (n / 10) ++ "." ++ toString (n % 10)

/-- The `.1%` format of a rational: percent with one decimal. -/
def fmtPct (x : ℚ) : String := fmtTenths ((rhe (x * 1000)).toNat) ++ "%"

/-- The per-group rate string of `create_summary_sheet`:
`(qualified / total * 100).round(1).astype(str) + s`, with `s` the percent
sign. -/
def pct1 (q t : ℕ) : String :=
  fmtTenths ((rhe ((q : ℚ) / (t : ℚ) * 100 * 10)).toNat) ++ "%"

/-- The grand-total rate string of `create_summary_sheet`: the `.1f` percent
format when there are cases, the literal `0%` otherwise. -/
def total_rate_str (q t : ℕ) : String :=
  if 0 < t then pct1 q t else "0%"

/-! ### The case evaluator -/

/-- One input row: the fields `evaluate_case` reads.  Absent cells are
`none`. -/
structure CaseRecord where
  insuranceType : Option String
  accidentTime : TimeField
  reportTime : TimeField
  reportSummary : Option String
  surveySummary : Option String
  institution : String

/-- The reason list accumulated by `evaluate_case`, one entry per failing
rule, in the source's order: mandatory, delay (only when triggered and not
passed), core elements, overlap. -/
def caseReasons (row : CaseRecord) : List String :=
  let category := classify_insurance row.insuranceType
  let m := check_mandatory row.surveySummary
  let d := check_delay row.accidentTime row.reportTime row.surveySummary
  let c := check_core_elements category row.surveySummary
  let o := check_overlap row.reportSummary row.surveySummary
  (if m.1 then [] else ["必填项缺失：" ++ String.intercalate ", " m.2]) ++
  (if d.1 && !d.2.1 then [d.2.2] else []) ++
  (if c.1 then [] else
    ["核心要素不足（需" ++ toString (min 3 (elementsFor category).length) ++
     "个，仅" ++ toString c.2.1 ++ "个），建议补充：" ++
     String.intercalate ", " (c.2.2.take 3)]) ++
  (if o.1 then [] else
    ["查勘摘要与报案摘要重合率过高（" ++ fmtPct o.2 ++ "），缺乏独立调查信息"])

/-- `evaluate_case`: verdict string and joined reason string. -/
def evaluate_case (row : CaseRecord) : String × String :=
  let reasons := caseReasons row
  if reasons.isEmpty then ("合格", "")
  else ("不合格", String.intercalate "；" reasons)

/-! ### The institution summary sheet -/

/-- One row of the summary sheet. -/
structure SummaryRow where
  institution : String
  totalCases : ℕ
  qualifiedCases : ℕ
  qualifiedRate : String
deriving DecidableEq

/-- The priority key of `create_summary_sheet.sort_key`:
`INSTITUTION_ORDER.index(inst)`, or the list's length for unlisted
institutions (the `except ValueError` fallback); `List.indexOf` has exactly
that index-or-length behaviour. -/
def sort_key (institution : String) : ℕ := INSTITUTION_ORDER.indexOf institution

/-- The group keys of `df.groupby('机构')`: the distinct institutions in
ascending name order (`groupby` sorts its keys by Python's code-point
lexicographic string comparison). -/
def groupKeys (pairs : List (String × String)) : List String :=
  List.insertionSort (fun a b => charListLE a.data b.data = true)
    (pairs.map Prod.fst).dedup

/-- One per-institution row: case count, qualified count (verdict equal to
`合格`), and the rate string. -/
def mkRow (pairs : List (String × String)) (k : String) : SummaryRow :=
  let total := (pairs.filter (fun p => p.1 == k)).length
  let qual := (pairs.filter (fun p => p.1 == k && p.2 == "合格")).length
  ⟨k, total, qual, pct1 qual total⟩

/-- `create_summary_sheet` over the (institution, verdict) pairs of the
case table: grouped rows sorted by the priority key, then one grand-total
row, always last.  The source's `sort_values` (numpy quicksort) guarantees
only the key order; ties among equal keys are implementation-defined there,
and this model's insertion sort coincides with it on small inputs (numpy
switches to insertion sort below 16 elements), including the two-group
counterexample below.  Facts proved about the order of this model's output
beyond determinism use only the key order. -/
def create_summary_sheet (pairs : List (String × String)) : List SummaryRow :=
  let rows := (groupKeys pairs).map (mkRow pairs)
  let sortedRows :=
    List.insertionSort (fun a b => sort_key a.institution ≤ sort_key b.institution) rows
  let total_cases := (sortedRows.map SummaryRow.totalCases).sum
  let total_qualified := (sortedRows.map SummaryRow.qualifiedCases).sum
  sortedRows ++
    [⟨"合计", total_cases, total_qualified, total_rate_str total_qualified total_cases⟩]

/-! ### Helper lemmas -/

/-- The nested first-match loop of `classify_insurance` is the first-match
search over the ordered table. -/
theorem findCategory_eq_find (l : List (String × List String)) (t : List Char) :
    findCategory l t =
      (l.find? (fun p => p.2.any (fun k => substringOf k.data t))).map Prod.fst := by
  induction l with
  | nil => rfl
  | cons hd tl ih =>
      obtain ⟨c, ks⟩ := hd
      cases h : ks.any (fun k => substringOf k.data t) with
      | true => simp [findCategory, h, List.find?]
      | false => simp [findCategory, h, List.find?, ih]

/-- The accumulation loop of `check_mandatory` computes the filter of the
pattern table by match failure, projected to the item names. -/
theorem missingItems_eq_filter (l : List (String × Pat)) (t : List Char) :
    missingItems l t = (l.filter (fun p => !search p.2 t)).map Prod.fst := by
  induction l with
  | nil => rfl
  | cons hd tl ih =>
      obtain ⟨item, p⟩ := hd
      cases h : search p t with
      | true => simp [missingItems, h, List.filter, ih]
      | false => simp [missingItems, h, List.filter, ih]

/-! ### The claims -/

/-- C3: classification returns `其他类` (`Other`) for absent input; otherwise
it scans the category table in declared order, keywords in declared order,
and returns the first category one of whose keywords is a substring of the
input, falling back to `其他类` when nothing matches.  The function is a
plain total function of the text. -/
theorem classify_insurance_correct :
    classify_insurance none = "其他类" ∧
    ∀ s : String,
      classify_insurance (some s) =
        match INSURANCE_CATEGORIES.find?
            (fun p => p.2.any (fun k => substringOf k.data s.data)) with
        | some p => p.1
        | none => "其他类" := by
  refine ⟨rfl, fun s => ?_⟩
  show (findCategory INSURANCE_CATEGORIES s.data).getD "其他类" = _
  rw [findCategory_eq_find]
  cases INSURANCE_CATEGORIES.find?
      (fun p => p.2.any (fun k => substringOf k.data s.data)) with
  | none => rfl
  | some p => rfl

/-- C7: the mandatory-field validator fails with all five items, in declared
order, on absent input; otherwise the missing items are exactly those of the
five whose pattern fails to match, in declared order, and the rule passes
exactly when no item is missing. -/
theorem check_mandatory_correct :
    check_mandatory none =
      (false, ["查勘时间", "查勘地点", "查勘方式", "出险时间", "出险地点"]) ∧
    ∀ t : String,
      (check_mandatory (some t)).2 =
        (MANDATORY_PATTERNS.filter (fun p => !search p.2 t.data)).map Prod.fst ∧
      ((check_mandatory (some t)).1 = true ↔ (check_mandatory (some t)).2 = []) := by
  refine ⟨rfl, fun t => ⟨?_, ?_⟩⟩
  · show missingItems MANDATORY_PATTERNS t.data = _
    exact missingItems_eq_filter MANDATORY_PATTERNS t.data
  · show ((missingItems MANDATORY_PATTERNS t.data).length == 0) = true ↔
      missingItems MANDATORY_PATTERNS t.data = []
    simp [List.length_eq_zero]

/-- C2: with both timestamps parsed, the delay detector computes the
floor-day difference report minus accident (negative values need no special
handling: they fall under the same comparison); at most seven days it is
untriggered and passes; above seven days it triggers, passes exactly when the
survey text is present and contains one of the four fixed justification
keywords, and otherwise fails with a reason citing the delay in days. -/
theorem check_delay_correct (ta tr : ℤ) (s : Option String) :
    (Int.fdiv (tr - ta) nsPerDay ≤ 7 →
      check_delay (.parsed ta) (.parsed tr) s = (false, true, "")) ∧
    (7 < Int.fdiv (tr - ta) nsPerDay →
      (check_delay (.parsed ta) (.parsed tr) s).1 = true ∧
      ((check_delay (.parsed ta) (.parsed tr) s).2.1 = true ↔
        ∃ text, s = some text ∧
          ∃ k ∈ DELAY_KEYWORDS, substringOf k.data text.data = true) ∧
      (s = none →
        check_delay (.parsed ta) (.parsed tr) s =
          (true, false,
            "报案延迟" ++ toString (Int.fdiv (tr - ta) nsPerDay) ++
              "天，查勘摘要未填写延迟原因")) ∧
      (∀ text, s = some text →
        (∀ k ∈ DELAY_KEYWORDS, substringOf k.data text.data = false) →
        check_delay (.parsed ta) (.parsed tr) s =
          (true, false,
            "报案延迟" ++ toString (Int.fdiv (tr - ta) nsPerDay) ++
              "天，查勘摘要未包含延迟原因说明"))) := by
  constructor
  · intro h
    simp [check_delay, h]
  · intro h
    have hle : ¬ Int.fdiv (tr - ta) nsPerDay ≤ 7 := not_le.mpr h
    cases s with
    | none => simp [check_delay, hle]
    | some text =>
        cases hk : DELAY_KEYWORDS.any (fun k => substringOf k.data text.data) with
        | true =>
            refine ⟨?_, ?_, ?_, ?_⟩
            · simp [check_delay, hle, hk]
            · simp only [check_delay, hle, if_neg hle, hk]
              simp only [if_true]
              constructor
              · intro _
                exact ⟨text, rfl, by simpa using List.any_eq_true.mp hk⟩
              · intro _; rfl
            · intro hcontra; cases hcontra
            · intro t2 ht2 hall
              cases ht2
              exfalso
              obtain ⟨k, hkmem, hksub⟩ := List.any_eq_true.mp hk
              have := hall k hkmem
              rw [this] at hksub
              cases hksub
        | false =>
            refine ⟨?_, ?_, ?_, ?_⟩
            · simp [check_delay, hle, hk]
            · simp only [check_delay, hle, if_neg hle, hk]
              simp only [if_false]
              constructor
              · intro hcontra; cases hcontra
              · rintro ⟨t2, ht2, k, hkmem, hksub⟩
                cases ht2
                have : DELAY_KEYWORDS.any (fun k => substringOf k.data text.data) = true :=
                  List.any_eq_true.mpr ⟨k, hkmem, hksub⟩
                rw [hk] at this
                cases this
            · intro hcontra; cases hcontra
            · intro t2 ht2 hall
              cases ht2
              simp [check_delay, hle, hk]

/-- Witness for C2: a nine-day delay with a survey text lacking every
justification keyword triggers and fails, citing the delay. -/
theorem check_delay_correct_witness :
    check_delay (.parsed 0) (.parsed (9 * nsPerDay)) (some "无说明文字") =
      (true, false, "报案延迟9天，查勘摘要未包含延迟原因说明") := by
  have h := (check_delay_correct 0 (9 * nsPerDay) (some "无说明文字")).2 (by decide)
  exact (h.2.2.2 "无说明文字" rfl (by decide)).trans (by decide)

/-- C9: the delay detector is fail-open on missing timing data: an absent or
unparsable timestamp on either side yields triggered = false and
passed = true, and an unparsable timestamp behaves exactly like an absent
one.  (All four rules are total computable functions by construction of this
embedding.) -/
theorem check_delay_fail_open :
    (∀ r s, check_delay .absent r s = (false, true, "")) ∧
    (∀ a s, check_delay a .absent s = (false, true, "")) ∧
    (∀ r s, check_delay .unparsable r s = (false, true, "")) ∧
    (∀ a s, check_delay a .unparsable s = (false, true, "")) ∧
    (∀ r s, check_delay .unparsable r s = check_delay .absent r s) ∧
    (∀ a s, check_delay a .unparsable s = check_delay a .absent s) := by
  refine ⟨fun r s => ?_, fun a s => ?_, fun r s => ?_, fun a s => ?_,
    fun r s => ?_, fun a s => ?_⟩
  · cases r <;> rfl
  · cases a <;> rfl
  · cases r <;> rfl
  · cases a <;> rfl
  · cases r <;> rfl
  · cases a <;> rfl

/-- The matched side of `check_core_elements`'s loop is the filter of the
element list by the match test. -/
theorem matchSplit_fst_eq_filter (l : List String) (t : List Char) :
    (matchSplit l t).1 = l.filter (fun e => elementMatches e t) := by
  induction l with
  | nil => rfl
  | cons e rest ih =>
      cases h : elementMatches e t with
      | true => simp [matchSplit, h, List.filter, ih]
      | false => simp [matchSplit, h, List.filter, ih]

/-- The missing side of `check_core_elements`'s loop is the filter of the
element list by match failure. -/
theorem matchSplit_snd_eq_filter (l : List String) (t : List Char) :
    (matchSplit l t).2 = l.filter (fun e => !(elementMatches e t)) := by
  induction l with
  | nil => rfl
  | cons e rest ih =>
      cases h : elementMatches e t with
      | true => simp [matchSplit, h, List.filter, ih]
      | false => simp [matchSplit, h, List.filter, ih]

/-- The two sides of the split partition the element list. -/
theorem matchSplit_length (l : List String) (t : List Char) :
    (matchSplit l t).1.length + (matchSplit l t).2.length = l.length := by
  induction l with
  | nil => rfl
  | cons e rest ih =>
      cases h : elementMatches e t with
      | true =>
          simp only [matchSplit, h, if_true, List.length_cons]
          omega
      | false =>
          simp only [matchSplit, h, Bool.false_eq_true, if_false, List.length_cons]
          omega

/-- C4: the core-element matcher uses the category's declared element list,
falling back to the `其他类` list for unknown categories; absent survey text
fails with zero matches and the full list missing; the matched count over a
present text is the number of elements passing the fuzzy-or-verbatim match
test; and the rule passes exactly when the matched count reaches
min(3, list length). -/
theorem check_core_elements_correct :
    (∀ c, check_core_elements c none = (false, 0, elementsFor c)) ∧
    (∀ c, CORE_ELEMENTS.find? (fun p => p.1 == c) = none →
      elementsFor c = elementsFor "其他类") ∧
    (∀ c t, (check_core_elements c (some t)).2.1 =
      ((elementsFor c).filter (fun e => elementMatches e t.data)).length) ∧
    (∀ c t, ((check_core_elements c (some t)).1 = true ↔
      min 3 (elementsFor c).length ≤ (check_core_elements c (some t)).2.1)) := by
  refine ⟨fun c => rfl, fun c h => ?_, fun c t => ?_, fun c t => ?_⟩
  · unfold elementsFor
    rw [h]
    decide
  · show (matchSplit (elementsFor c) t.data).1.length = _
    rw [matchSplit_fst_eq_filter]
  · show (decide _) = true ↔ _
    rw [decide_eq_true_eq]
    rfl

/-- Witness for C4: an unknown category uses the `其他类` element list, and
an absent survey for `意外类` fails with its full four-element list. -/
theorem check_core_elements_correct_witness :
    elementsFor "某未知险类" = elementsFor "其他类" ∧
    check_core_elements "意外类" none = (false, 0, ["伤情", "部位", "医院", "职业"]) :=
  ⟨check_core_elements_correct.2.1 "某未知险类" (by decide),
   (check_core_elements_correct.1 "意外类").trans (by decide)⟩

/-- C10: for a present survey text the matcher's outputs partition the
selected element list: matched count plus missing length equals the list
length, the missing list is an order-preserving sublist of the declared
list, and an element occurring verbatim in the text is never missing. -/
theorem check_core_elements_invariants (c t : String) :
    (check_core_elements c (some t)).2.1 +
        (check_core_elements c (some t)).2.2.length = (elementsFor c).length ∧
    List.Sublist (check_core_elements c (some t)).2.2 (elementsFor c) ∧
    ∀ e ∈ elementsFor c, substringOf e.data t.data = true →
      e ∉ (check_core_elements c (some t)).2.2 := by
  refine ⟨?_, ?_, ?_⟩
  · exact matchSplit_length (elementsFor c) t.data
  · show List.Sublist (matchSplit (elementsFor c) t.data).2 _
    rw [matchSplit_snd_eq_filter]
    exact List.filter_sublist _
  · intro e _ hsub hmem
    have hmem2 : e ∈ (matchSplit (elementsFor c) t.data).2 := hmem
    rw [matchSplit_snd_eq_filter] at hmem2
    have := (List.mem_filter.mp hmem2).2
    simp only [Bool.not_eq_true'] at this
    have : elementMatches e t.data = true := by
      unfold elementMatches
      rw [hsub]
      simp
    simp_all

/-- Witness for C10: the element `职业` occurs verbatim in the text, so it is
not reported missing for category `意外类`. -/
theorem check_core_elements_invariants_witness :
    "职业" ∉ (check_core_elements "意外类" (some "职业：工人")).2.2 :=
  (check_core_elements_invariants "意外类" "职业：工人").2.2 "职业" (by decide) (by decide)

/-- A nonempty character list has a nonempty character set. -/
theorem toFinset_card_pos (l : List Char) (h : l ≠ []) : 0 < l.toFinset.card := by
  cases l with
  | nil => exact absurd rfl h
  | cons c t => exact Finset.card_pos.mpr ⟨c, by simp⟩

/-- On two texts that are nonempty after stripping, `check_overlap` returns
the character-set overlap ratio and compares it with 4/5. -/
theorem check_overlap_main (r s : String)
    (hr : pyStrip r.data ≠ []) (hs : pyStrip s.data ≠ []) :
    check_overlap (some r) (some s) =
      (decide ((((pyStrip r.data).toFinset ∩ (pyStrip s.data).toFinset).card : ℚ) /
          ((max (pyStrip r.data).toFinset.card (pyStrip s.data).toFinset.card : ℕ) : ℚ)
          < 4/5),
       (((pyStrip r.data).toFinset ∩ (pyStrip s.data).toFinset).card : ℚ) /
          ((max (pyStrip r.data).toFinset.card (pyStrip s.data).toFinset.card : ℕ) : ℚ)) := by
  have her : (pyStrip r.data).isEmpty = false := by
    cases hl : pyStrip r.data with
    | nil => exact absurd hl hr
    | cons a l => rfl
  have hes : (pyStrip s.data).isEmpty = false := by
    cases hl : pyStrip s.data with
    | nil => exact absurd hl hs
    | cons a l => rfl
  have hmax : 0 < max (pyStrip r.data).toFinset.card (pyStrip s.data).toFinset.card :=
    lt_of_lt_of_le (toFinset_card_pos _ hr) (le_max_left _ _)
  simp only [check_overlap, her, hes, Bool.or_self, Bool.false_eq_true, if_false,
    gt_iff_lt, hmax, if_pos]

/-- C6: the overlap calculator passes with rate 0 when either text is absent
or blank after stripping; the rate always lies in [0, 1]; the rule passes
exactly when the rate is below 4/5; identical nonempty texts give rate 1 and
fail; texts sharing no characters give rate 0 and pass. -/
theorem check_overlap_correct :
    (∀ s, check_overlap none s = (true, 0)) ∧
    (∀ r, check_overlap r none = (true, 0)) ∧
    (∀ r s : String, (pyStrip r.data = [] ∨ pyStrip s.data = []) →
      check_overlap (some r) (some s) = (true, 0)) ∧
    (∀ r s, 0 ≤ (check_overlap r s).2 ∧ (check_overlap r s).2 ≤ 1) ∧
    (∀ r s, ((check_overlap r s).1 = true ↔ (check_overlap r s).2 < 4/5)) ∧
    (∀ s : String, pyStrip s.data ≠ [] →
      check_overlap (some s) (some s) = (false, 1)) ∧
    (∀ r s : String, pyStrip r.data ≠ [] → pyStrip s.data ≠ [] →
      (pyStrip r.data).toFinset ∩ (pyStrip s.data).toFinset = ∅ →
      check_overlap (some r) (some s) = (true, 0)) := by
  have hblank : ∀ r s : String, (pyStrip r.data = [] ∨ pyStrip s.data = []) →
      check_overlap (some r) (some s) = (true, 0) := by
    intro r s h
    rcases h with h | h <;> simp [check_overlap, h]
  refine ⟨fun s => by cases s <;> rfl, fun r => by cases r <;> rfl, hblank, ?_, ?_, ?_, ?_⟩
  · intro r s
    rcases r with _ | r
    · rcases s with _ | s <;> exact ⟨le_refl 0, by show (0 : ℚ) ≤ 1; norm_num⟩
    rcases s with _ | s
    · exact ⟨le_refl 0, by show (0 : ℚ) ≤ 1; norm_num⟩
    by_cases hr : pyStrip r.data = []
    · rw [hblank r s (Or.inl hr)]; exact ⟨le_refl 0, by norm_num⟩
    by_cases hs : pyStrip s.data = []
    · rw [hblank r s (Or.inr hs)]; exact ⟨le_refl 0, by norm_num⟩
    rw [check_overlap_main r s hr hs]
    have hmax : 0 < max (pyStrip r.data).toFinset.card (pyStrip s.data).toFinset.card :=
      lt_of_lt_of_le (toFinset_card_pos _ hr) (le_max_left _ _)
    have hmaxq : (0 : ℚ) <
        ((max (pyStrip r.data).toFinset.card (pyStrip s.data).toFinset.card : ℕ) : ℚ) := by
      exact_mod_cast hmax
    constructor
    · exact div_nonneg (by positivity) (le_of_lt hmaxq)
    · rw [div_le_one hmaxq]
      have hcard : ((pyStrip r.data).toFinset ∩ (pyStrip s.data).toFinset).card ≤
          max (pyStrip r.data).toFinset.card (pyStrip s.data).toFinset.card :=
        le_trans (Finset.card_le_card Finset.inter_subset_left) (le_max_left _ _)
      exact_mod_cast hcard
  · intro r s
    rcases r with _ | r
    · rcases s with _ | s <;> · show (true = true ↔ (0 : ℚ) < 4/5); norm_num
    rcases s with _ | s
    · show (true = true ↔ (0 : ℚ) < 4/5); norm_num
    by_cases hr : pyStrip r.data = []
    · rw [hblank r s (Or.inl hr)]; norm_num
    by_cases hs : pyStrip s.data = []
    · rw [hblank r s (Or.inr hs)]; norm_num
    rw [check_overlap_main r s hr hs]
    exact ⟨of_decide_eq_true, decide_eq_true⟩
  · intro s h
    rw [check_overlap_main s s h h]
    have hc : 0 < (pyStrip s.data).toFinset.card := toFinset_card_pos _ h
    have hne : (((pyStrip s.data).toFinset.card : ℕ) : ℚ) ≠ 0 := by
      exact_mod_cast Nat.pos_iff_ne_zero.mp hc
    rw [Finset.inter_self, max_self, div_self hne]
    norm_num
  · intro r s hr hs hdisj
    rw [check_overlap_main r s hr hs, hdisj]
    norm_num

/-- Witness for C6: identical nonempty texts overlap fully and fail, and a
survey text blank after stripping (an ideographic space and an ASCII space)
passes with rate 0. -/
theorem check_overlap_correct_witness :
    check_overlap (some "现场查勘情况") (some "现场查勘情况") = (false, 1) ∧
    check_overlap (some "现场查勘情况") (some "　 ") = (true, 0) :=
  ⟨check_overlap_correct.2.2.2.2.2.1 "现场查勘情况" (by decide),
   check_overlap_correct.2.2.1 "现场查勘情况" "　 " (Or.inr (by decide))⟩

/-- C1: a case is `合格` (qualified) exactly when all four rules pass, the
delay rule failing only when triggered and not passed; the verdict is
two-valued; a qualified case has no reasons and an empty reason string; and
the reason list has exactly one entry per failing rule, appended in the
fixed order mandatory, delay, core elements, overlap, each rule evaluated
regardless of the others. -/
theorem evaluate_case_correct (row : CaseRecord) :
    ((evaluate_case row).1 = "合格" ↔
      (check_mandatory row.surveySummary).1 = true ∧
      ¬((check_delay row.accidentTime row.reportTime row.surveySummary).1 = true ∧
        (check_delay row.accidentTime row.reportTime row.surveySummary).2.1 = false) ∧
      (check_core_elements (classify_insurance row.insuranceType) row.surveySummary).1
        = true ∧
      (check_overlap row.reportSummary row.surveySummary).1 = true) ∧
    ((evaluate_case row).1 = "合格" →
      caseReasons row = [] ∧ (evaluate_case row).2 = "") ∧
    ((evaluate_case row).1 ≠ "合格" → (evaluate_case row).1 = "不合格") ∧
    (caseReasons row).length =
      ((if (check_mandatory row.surveySummary).1 then 0 else 1) +
       (if (check_delay row.accidentTime row.reportTime row.surveySummary).1 = true ∧
           (check_delay row.accidentTime row.reportTime row.surveySummary).2.1 = false
        then 1 else 0) +
       (if (check_core_elements (classify_insurance row.insuranceType)
              row.surveySummary).1 then 0 else 1) +
       (if (check_overlap row.reportSummary row.surveySummary).1 then 0 else 1)) := by
  cases hm : (check_mandatory row.surveySummary).1 with
  | _ =>
    cases hd1 : (check_delay row.accidentTime row.reportTime row.surveySummary).1 with
    | _ =>
      cases hd2 :
          (check_delay row.accidentTime row.reportTime row.surveySummary).2.1 with
      | _ =>
        cases hc : (check_core_elements (classify_insurance row.insuranceType)
            row.surveySummary).1 with
        | _ =>
          cases ho : (check_overlap row.reportSummary row.surveySummary).1 with
          | _ =>
            simp_all [evaluate_case, caseReasons, hm, hd1, hd2, hc, ho]

/-- Witness for C1: a record passing all four rules is qualified. -/
theorem evaluate_case_correct_witness :
    (evaluate_case ⟨none, .absent, .absent, none,
      some "查勘时间2024年1月2日，查勘地点工地，现场核实。事故时间1月1日，事故地点工地。损失类型：设备损坏，后续处理：已修复",
      "合肥"⟩).1 = "合格" :=
  (evaluate_case_correct _).1.mpr ⟨by decide, by decide, by decide, by decide⟩

/-- The rounded value is one of the two integers surrounding the argument. -/
theorem rhe_cases (x : ℚ) : rhe x = ⌊x⌋ ∨ rhe x = ⌊x⌋ + 1 := by
  unfold rhe
  split_ifs <;> simp

/-- Round-half-to-even is within one half of its argument. -/
theorem abs_rhe_sub (x : ℚ) : |(rhe x : ℚ) - x| ≤ 1/2 := by
  have hf := Int.floor_le x
  have hf2 := Int.lt_floor_add_one x
  unfold rhe
  split_ifs with h1 h2 h3 <;> rw [abs_le] <;> push_cast <;> constructor <;> linarith

/-- Rounding a nonnegative rational is nonnegative. -/
theorem rhe_nonneg (x : ℚ) (h : 0 ≤ x) : 0 ≤ rhe x := by
  have hfl : (0 : ℤ) ≤ ⌊x⌋ := Int.floor_nonneg.mpr h
  rcases rhe_cases x with h1 | h1 <;> omega

/-- Rounding respects an integer upper bound. -/
theorem rhe_le (x : ℚ) (m : ℤ) (h : x ≤ m) : rhe x ≤ m := by
  have h1 := abs_rhe_sub x
  rw [abs_le] at h1
  have h2 : (rhe x : ℚ) < (m : ℚ) + 1 := by linarith
  have h3 : rhe x < m + 1 := by exact_mod_cast h2
  omega

/-- C8: the summary rate string is the percentage q/t·100 rounded to one
decimal, rendered with one digit after the point and a trailing percent
sign; the per-group rendering and the grand-total rendering agree; and a
zero-case total renders as the literal `0%`. -/
theorem summary_rate_correct (q t : ℕ) (h : q ≤ t) :
    total_rate_str q 0 = "0%" ∧
    (0 < t → ∃ n : ℕ, n ≤ 1000 ∧
      pct1 q t = fmtTenths n ++ "%" ∧
      total_rate_str q t = pct1 q t ∧
      fmtTenths n = toString (n / 10) ++ "." ++ toString (n % 10) ∧
      |(n : ℚ) / 10 - (q : ℚ) / (t : ℚ) * 100| ≤ 1 / 20) := by
  refine ⟨rfl, fun ht => ?_⟩
  have htq : (0 : ℚ) < (t : ℚ) := by exact_mod_cast ht
  have hx0 : 0 ≤ (q : ℚ) / (t : ℚ) * 100 := by positivity
  have hx100 : (q : ℚ) / (t : ℚ) * 100 ≤ 100 := by
    have hq1 : (q : ℚ) / (t : ℚ) ≤ 1 := by
      rw [div_le_one htq]
      exact_mod_cast h
    nlinarith
  have hnn : 0 ≤ rhe ((q : ℚ) / (t : ℚ) * 100 * 10) := rhe_nonneg _ (by positivity)
  refine ⟨(rhe ((q : ℚ) / (t : ℚ) * 100 * 10)).toNat, ?_, rfl, ?_, rfl, ?_⟩
  · have hle : rhe ((q : ℚ) / (t : ℚ) * 100 * 10) ≤ 1000 :=
      rhe_le _ 1000 (by push_cast; nlinarith)
    omega
  · show (if 0 < t then pct1 q t else "0%") = pct1 q t
    exact if_pos ht
  · have h1 := abs_rhe_sub ((q : ℚ) / (t : ℚ) * 100 * 10)
    have hcast : (((rhe ((q : ℚ) / (t : ℚ) * 100 * 10)).toNat : ℕ) : ℚ) =
        ((rhe ((q : ℚ) / (t : ℚ) * 100 * 10) : ℤ) : ℚ) := by
      exact_mod_cast congrArg Int.cast (Int.toNat_of_nonneg hnn)
    rw [hcast, abs_le] at *
    obtain ⟨ha, hb⟩ := h1
    constructor <;> linarith

/-- Witness for C8: one of three cases qualified renders as 33.3 percent,
within a twentieth of the exact rate. -/
theorem summary_rate_correct_witness :
    total_rate_str 1 0 = "0%" ∧
    (0 < 3 → ∃ n : ℕ, n ≤ 1000 ∧
      pct1 1 3 = fmtTenths n ++ "%" ∧
      total_rate_str 1 3 = pct1 1 3 ∧
      fmtTenths n = toString (n / 10) ++ "." ++ toString (n % 10) ∧
      |(n : ℚ) / 10 - ((1 : ℕ) : ℚ) / ((3 : ℕ) : ℚ) * 100| ≤ 1 / 20) :=
  summary_rate_correct 1 3 (by decide)

/-- C5 (amended): the summary sheet is the per-institution rows followed by
exactly one grand-total row, always last, labelled `合计`, whose case and
qualified counts are the sums over all group rows; the group rows are
exactly the distinct input institutions, ordered by ascending priority-list
index with every unlisted institution after all listed ones (its key is the
list length).  The relative order among unlisted institutions is a
deterministic function of the input (the sheet is a pure function) but not
the first-encounter input order — see the counterexample — and no stronger
tie order is asserted, since the source's quicksort guarantees none. -/
theorem create_summary_sheet_correct (pairs : List (String × String)) :
    ∃ rows total,
      create_summary_sheet pairs = rows ++ [total] ∧
      total.institution = "合计" ∧
      total.totalCases = (rows.map SummaryRow.totalCases).sum ∧
      total.qualifiedCases = (rows.map SummaryRow.qualifiedCases).sum ∧
      List.Perm (rows.map SummaryRow.institution) (pairs.map Prod.fst).dedup ∧
      rows.Pairwise
        (fun a b => sort_key a.institution ≤ sort_key b.institution) := by
  refine ⟨List.insertionSort
      (fun a b => sort_key a.institution ≤ sort_key b.institution)
      ((groupKeys pairs).map (mkRow pairs)), _, rfl, rfl, rfl, rfl, ?_, ?_⟩
  · have h1 := (List.perm_insertionSort
      (fun a b : SummaryRow => sort_key a.institution ≤ sort_key b.institution)
      ((groupKeys pairs).map (mkRow pairs))).map SummaryRow.institution
    rw [List.map_map] at h1
    have h2 : SummaryRow.institution ∘ mkRow pairs = id := funext fun k => rfl
    rw [h2, List.map_id] at h1
    exact h1.trans (List.perm_insertionSort _ _)
  · haveI : IsTotal SummaryRow
        (fun a b => sort_key a.institution ≤ sort_key b.institution) :=
      ⟨fun a b => Nat.le_total _ _⟩
    haveI : IsTrans SummaryRow
        (fun a b => sort_key a.institution ≤ sort_key b.institution) :=
      ⟨fun a b c h1 h2 => Nat.le_trans h1 h2⟩
    exact List.sorted_insertionSort
      (fun a b : SummaryRow => sort_key a.institution ≤ sort_key b.institution) _

/-- Counterexample to C5 as stated: two unlisted institutions entered in the
input order 甲, 乙 come out in the order 乙, 甲 — the ascending-name order of
the sorted group-by — not in first-encounter or input order. -/
theorem create_summary_sheet_unlisted_order_counterexample :
    (create_summary_sheet [("甲", "合格"), ("乙", "合格")]).map SummaryRow.institution
        = ["乙", "甲", "合计"] ∧
    (create_summary_sheet [("甲", "合格"), ("乙", "合格")]).map SummaryRow.institution
        ≠ ["甲", "乙", "合计"] := by decide

end ClaimChecker
